import Mathlib

/-!
Verification of `scripts/convert_clone_file.py`, a single-pass converter from a
Deckard clusters file to a `start,count,filename` manifest.  The script is
embedded shallowly: an input file is a list of its lines (without trailing
newlines), the output stream is the list of lines written, the diagnostics
printed by the script are collected in order, and an uncaught Python exception
(IndexError from the unguarded look-ahead, ValueError from `int(...)`) is an
explicit error value that aborts the remaining processing.
-/

/-- Characters treated as separators by Python `str.split()` with no
argument. -/
def pySpace (c : Char) : Bool :=
  c = ' ' || c = '\t' || c = '\n' || c = '\r' || c = '\x0b' || c = '\x0c'

/-- Worker for `pySplitWs`: walks the characters, `acc` holds the reversed
characters of the token being read. -/
def splitWsAux : List Char → List Char → List String
  | [], acc => if acc.isEmpty then [] else [String.mk acc.reverse]
  | ch :: cs, acc =>
    if pySpace ch then
      if acc.isEmpty then splitWsAux cs []
      else String.mk acc.reverse :: splitWsAux cs []
    else splitWsAux cs (ch :: acc)

/-- Python `line.split()`: split on runs of whitespace, producing no empty
tokens. -/
def pySplitWs (s : String) : List String :=
  splitWsAux s.data []

/-- Worker for `pySplitColon`. -/
def splitColonAux : List Char → List Char → List String
  | [], acc => [String.mk acc.reverse]
  | ch :: cs, acc =>
    if ch = ':' then String.mk acc.reverse :: splitColonAux cs []
    else splitColonAux cs (ch :: acc)

/-- Python `tok.split(":")`: split at every colon, keeping empty parts. -/
def pySplitColon (s : String) : List String :=
  splitColonAux s.data []

/-- Python `tok[:4]`: the first four characters of the token (the whole token
when it is shorter). -/
def pyPrefix4 (s : String) : String :=
  String.mk (s.data.take 4)

/-- Decimal value of a digit list (most significant first). -/
def digitsToNat : List Char → Nat → Nat
  | [], n => n
  | ch :: cs, n => digitsToNat cs (n * 10 + (ch.toNat - '0'.toNat))

/-- Nonempty all-digit character lists, the shape accepted by `int`. -/
def allDigits (cs : List Char) : Bool :=
  !cs.isEmpty && cs.all Char.isDigit

/-- Python `int(s)` for base-10 literals: optional surrounding whitespace, an
optional single sign, then one or more digits; `none` models the ValueError
raised on any other shape. -/
def pyInt (s : String) : Option Int :=
  let t := ((s.data.dropWhile pySpace).reverse.dropWhile pySpace).reverse
  match t with
  | '-' :: ds => if allDigits ds then some (-(digitsToNat ds 0 : Int)) else none
  | '+' :: ds => if allDigits ds then some ((digitsToNat ds 0 : Int)) else none
  | ds => if allDigits ds then some ((digitsToNat ds 0 : Int)) else none

/-- The uncaught Python exceptions that can escape the per-line scan: the
unguarded `split_line[index+1]` look-ahead (IndexError) and `int(...)` on a
non-integer part (ValueError, carrying the offending text). -/
inductive ConvErr where
  | indexError : ConvErr
  | valueError : String → ConvErr
deriving DecidableEq

/-- The token scan of `convert_file` (source lines 31-41).  `split_line` is the
whole token list of the line (the look-ahead indexes into it), the main
argument is the suffix of tokens still to scan, `index` the position of its
head in `split_line`; `filename`, `startline`, `num_lines` are the running
field values.  Returns the diagnostics printed during the scan together with
the final field values, or the uncaught exception. -/
def scanLoop (split_line : List String) (line : String) :
    List String → Nat → String → Int → Int →
    List String × Except ConvErr (String × Int × Int)
  | [], _, filename, startline, num_lines =>
    ([], .ok (filename, startline, num_lines))
  | tok :: rest, index, filename, startline, num_lines =>
    match (if tok = "FILE" then split_line[index + 1]? else some filename) with
    | none => ([], .error .indexError)
    | some fn1 =>
      if pyPrefix4 tok = "LINE" then
        if (pySplitColon tok).length ≠ 3 then
          let p := scanLoop split_line line rest (index + 1) fn1 startline num_lines
          (("BAD LINE DELIMITER AT LINE: " ++ line) :: p.1, p.2)
        else
          match pyInt ((pySplitColon tok)[1]!) with
          | none => ([], .error (.valueError ((pySplitColon tok)[1]!)))
          | some sv =>
            match pyInt ((pySplitColon tok)[2]!) with
            | none => ([], .error (.valueError ((pySplitColon tok)[2]!)))
            | some cv => scanLoop split_line line rest (index + 1) fn1 sv cv
      else scanLoop split_line line rest (index + 1) fn1 startline num_lines

/-- The output record `"%d,%d,%s"` of source line 55 (the terminating newline
is the line separator of the output list). -/
def formatRecord (startline num_lines : Int) (filename : String) : String :=
  toString startline ++ "," ++ toString num_lines ++ "," ++ filename

/-- The three missing-field diagnostics of source lines 43-51, in print
order. -/
def validateDiags (line filename : String) (startline num_lines : Int) :
    List String :=
  (if filename = "" then ["NO FILENAME FOUND AT LINE: " ++ line] else []) ++
  (if startline = -1 then ["NO STARTLINE FOUND AT LINE: " ++ line] else []) ++
  (if num_lines = -1 then ["NO NUM_LINES FOUND AT LINE: " ++ line] else [])

/-- Processing of a data-bearing line (source lines 30-55): run the token scan
from the initial sentinels `'' / -1 / -1`, then the missing-field checks;
returns all diagnostics printed for the line and either the record to write
(`some`), the suppressed-record outcome (`none`), or the uncaught exception. -/
def processData (line : String) (split_line : List String) :
    List String × Except ConvErr (Option String) :=
  let p := scanLoop split_line line split_line 0 "" (-1) (-1)
  match p.2 with
  | .error e => (p.1, .error e)
  | .ok (filename, startline, num_lines) =>
    if filename = "" ∨ startline = -1 ∨ num_lines = -1 then
      (p.1 ++ validateDiags line filename startline num_lines, .ok none)
    else
      (p.1 ++ validateDiags line filename startline num_lines,
       .ok (some (formatRecord startline num_lines filename)))

/-- One iteration of the per-line loop of `convert_file` (source lines 14-55):
given the `write_blank` flag and the line, returns the new flag, the lines
written to the output file, the diagnostics printed, and the uncaught
exception when the line aborted the run. -/
def processLine (write_blank : Bool) (line : String) :
    Bool × List String × List String × Option ConvErr :=
  let split_line := pySplitWs line
  if split_line = [] then
    if write_blank then (false, [""], [], none)
    else (write_blank, [], [], none)
  else
    let r := processData line split_line
    match r.2 with
    | .error e => (write_blank, [], r.1, some e)
    | .ok none => (write_blank, [], r.1, none)
    | .ok (some rec) => (true, [rec], r.1, none)

/-- The whole per-line loop of `convert_file`: threads the `write_blank` flag
(initially false), stops at the first uncaught exception, and accumulates the
output lines and the diagnostics. -/
def convLoop : Bool → List String → List String × List String × Option ConvErr
  | _, [] => ([], [], none)
  | write_blank, l :: rest =>
    let p := processLine write_blank l
    match p.2.2.2 with
    | some e => (p.2.1, p.2.2.1, some e)
    | none =>
      let q := convLoop p.1 rest
      (p.2.1 ++ q.1, p.2.2.1 ++ q.2.1, q.2.2)

/-- `convert_file` on the list of input lines: the output lines written, the
diagnostics printed, and the uncaught exception when the run aborted. -/
def convert_file (lines : List String) :
    List String × List String × Option ConvErr :=
  convLoop false lines

/-- Stream life-cycle and observable events of one `convert_file` call. -/
inductive Event where
  | openIn : Event
  | openOut : Event
  | write : String → Event
  | diag : String → Event
  | closeIn : Event
  | closeOut : Event
deriving DecidableEq

/-- The event trace of `convert_file`: both streams are opened at entry
(source lines 10-11); the two `close()` calls (source lines 57-58) run only
when the loop finishes, since an uncaught exception propagates past them. -/
def convertTrace (lines : List String) : List Event × Option ConvErr :=
  match convert_file lines with
  | (out, ds, none) =>
    ([.openIn, .openOut] ++ out.map .write ++ ds.map .diag ++
      [.closeIn, .closeOut], none)
  | (out, ds, some e) =>
    ([.openIn, .openOut] ++ out.map .write ++ ds.map .diag, some e)

/-- The `main` function of the script (source lines 61-68; named `mainFn`
here because Lean reserves `main`) on `sys.argv` (program name included): the
lines printed, the returned value, and the `(input, output)` argument pair
passed on to `convert_file` when the argument check passes. -/
def mainFn (argv : List String) : List String × Int × Option (String × String) :=
  if h : argv.length ≠ 3 then
    (["NEED 2 ARGUMENTS", "ARGUMENT FORMAT: input_file output_file"], 1, none)
  else
    ([], 0, some (argv.get ⟨1, by omega⟩, argv.get ⟨2, by omega⟩))

example : pySplitWs "FILE a.c  LINE:1:2 " = ["FILE", "a.c", "LINE:1:2"] := rfl
example : pySplitColon "LINE:10:5" = ["LINE", "10", "5"] := rfl
example : pySplitColon "LINE" = ["LINE"] := rfl
example : pyPrefix4 "LINE:1:2" = "LINE" := rfl
example : pyPrefix4 "abc" = "abc" := rfl
example : pyInt "10" = some 10 := rfl
example : pyInt "-1" = some (-1) := rfl
example : pyInt "+3" = some 3 := rfl
example : pyInt "a" = none := rfl
example : pyInt "" = none := rfl
example : pyInt "1x" = none := rfl
example : formatRecord 10 5 "foo.c" = "10,5,foo.c" := rfl
example : convert_file ["FILE test.c LINE:1:3", "", "FILE test.c LINE:10:2"] =
    (["1,3,test.c", "", "10,2,test.c"], [], none) := rfl
example : convert_file ["FILE"] = ([], [], some .indexError) := rfl
example : convert_file ["FILE a.c FILE b.c LINE:1:2"] =
    (["1,2,b.c"], [], none) := rfl
example : convert_file ["LINE:a:b FILE"] =
    ([], [], some (.valueError "a")) := rfl
example : convert_file ["FILE a.c LINE:10:5:extra LINE:1:2"] =
    (["1,2,a.c"],
     ["BAD LINE DELIMITER AT LINE: FILE a.c LINE:10:5:extra LINE:1:2"],
     none) := rfl
example : convert_file ["FILE a.c LINE:-1:5"] =
    ([], ["NO STARTLINE FOUND AT LINE: FILE a.c LINE:-1:5"], none) := rfl
example : mainFn ["prog"] =
    (["NEED 2 ARGUMENTS", "ARGUMENT FORMAT: input_file output_file"], 1, none)
    := rfl
example : mainFn ["prog", "a", "b"] = ([], 0, some ("a", "b")) := rfl

/-! ### Basic facts about the embedded primitives -/

theorem str_data_append (s t : String) : (s ++ t).data = s.data ++ t.data := rfl

theorem getBang1 (a s c : String) : ([a, s, c])[1]! = s := rfl

theorem getBang2 (a s c : String) : ([a, s, c])[2]! = c := rfl

/-- A token whose first four characters are `LINE` is not the token `FILE`. -/
theorem ne_FILE_of_prefix4_LINE {t : String} (h : pyPrefix4 t = "LINE") :
    t ≠ "FILE" := by
  intro he
  rw [he] at h
  exact absurd h (by decide)

/-- The record `"%d,%d,%s"` is never the empty line. -/
theorem formatRecord_ne_empty (startline num_lines : Int) (filename : String) :
    formatRecord startline num_lines filename ≠ "" := by
  intro h
  have h2 : (formatRecord startline num_lines filename).data = [] := by
    rw [h]
  have h3 : (formatRecord startline num_lines filename).data =
      (toString startline).data ++ [','] ++ (toString num_lines).data ++ [','] ++
        filename.data := by
    simp [formatRecord, str_data_append]
  rw [h3] at h2
  simp at h2

/-- Tokens produced by `pySplitWs` are never empty. -/
theorem splitWsAux_ne_empty :
    ∀ (cs acc : List Char), ∀ u ∈ splitWsAux cs acc, u ≠ "" := by
  intro cs
  induction cs with
  | nil =>
    intro acc u hu
    unfold splitWsAux at hu
    by_cases h : acc.isEmpty
    · simp [h] at hu
    · simp [h] at hu
      subst hu
      intro he
      have := congrArg String.data he
      simp at this
      simp [this] at h
  | cons ch cs ih =>
    intro acc u hu
    unfold splitWsAux at hu
    by_cases hsp : pySpace ch
    · simp only [hsp, if_true] at hu
      by_cases h : acc.isEmpty
      · simp [h] at hu
        exact ih [] u hu
      · simp [h] at hu
        rcases hu with hu | hu
        · subst hu
          intro he
          have := congrArg String.data he
          simp at this
          simp [this] at h
        · exact ih [] u hu
    · simp only [hsp, if_false, Bool.false_eq_true] at hu
      exact ih (ch :: acc) u hu

/-- Tokens of a split line are never empty. -/
theorem pySplitWs_mem_ne_empty {s u : String} (h : u ∈ pySplitWs s) : u ≠ "" :=
  splitWsAux_ne_empty s.data [] u h

/-! ### Step equations for the token scan -/

theorem scan_nil (full : List String) (line : String) (idx : Nat) (fn : String)
    (sl nl : Int) :
    scanLoop full line [] idx fn sl nl = ([], .ok (fn, sl, nl)) := rfl

theorem scan_file_none (full : List String) (line : String) (rest : List String)
    (idx : Nat) (fn : String) (sl nl : Int) (hb : full[idx + 1]? = none) :
    scanLoop full line ("FILE" :: rest) idx fn sl nl =
      ([], .error .indexError) := by
  simp [scanLoop, hb]

theorem scan_file_some (full : List String) (line b : String)
    (rest : List String) (idx : Nat) (fn : String) (sl nl : Int)
    (hb : full[idx + 1]? = some b) :
    scanLoop full line ("FILE" :: rest) idx fn sl nl =
      scanLoop full line rest (idx + 1) b sl nl := by
  have h4 : ¬ pyPrefix4 "FILE" = "LINE" := by decide
  simp [scanLoop, hb, h4]

theorem scan_neutral (full : List String) (line tok : String)
    (rest : List String) (idx : Nat) (fn : String) (sl nl : Int)
    (h1 : tok ≠ "FILE") (h2 : pyPrefix4 tok ≠ "LINE") :
    scanLoop full line (tok :: rest) idx fn sl nl =
      scanLoop full line rest (idx + 1) fn sl nl := by
  simp [scanLoop, h1, h2]

theorem scan_badcolon (full : List String) (line tok : String)
    (rest : List String) (idx : Nat) (fn : String) (sl nl : Int)
    (h1 : tok ≠ "FILE") (h2 : pyPrefix4 tok = "LINE")
    (h3 : (pySplitColon tok).length ≠ 3) :
    scanLoop full line (tok :: rest) idx fn sl nl =
      (("BAD LINE DELIMITER AT LINE: " ++ line) ::
         (scanLoop full line rest (idx + 1) fn sl nl).1,
       (scanLoop full line rest (idx + 1) fn sl nl).2) := by
  simp [scanLoop, h1, h2, h3]

theorem scan_goodline (full : List String) (line tok x s c : String)
    (sv cv : Int) (rest : List String) (idx : Nat) (fn : String) (sl nl : Int)
    (h2 : pyPrefix4 tok = "LINE") (hsp : pySplitColon tok = [x, s, c])
    (hs : pyInt s = some sv) (hc : pyInt c = some cv) :
    scanLoop full line (tok :: rest) idx fn sl nl =
      scanLoop full line rest (idx + 1) fn sv cv := by
  have h1 : tok ≠ "FILE" := ne_FILE_of_prefix4_LINE h2
  simp [scanLoop, h1, h2, hsp, hs, hc]

theorem scan_badint1 (full : List String) (line tok x s c : String)
    (rest : List String) (idx : Nat) (fn : String) (sl nl : Int)
    (h2 : pyPrefix4 tok = "LINE") (hsp : pySplitColon tok = [x, s, c])
    (hs : pyInt s = none) :
    scanLoop full line (tok :: rest) idx fn sl nl =
      ([], .error (.valueError s)) := by
  have h1 : tok ≠ "FILE" := ne_FILE_of_prefix4_LINE h2
  simp [scanLoop, h1, h2, hsp, hs]

theorem scan_badint2 (full : List String) (line tok x s c : String) (sv : Int)
    (rest : List String) (idx : Nat) (fn : String) (sl nl : Int)
    (h2 : pyPrefix4 tok = "LINE") (hsp : pySplitColon tok = [x, s, c])
    (hs : pyInt s = some sv) (hc : pyInt c = none) :
    scanLoop full line (tok :: rest) idx fn sl nl =
      ([], .error (.valueError c)) := by
  have h1 : tok ≠ "FILE" := ne_FILE_of_prefix4_LINE h2
  simp [scanLoop, h1, h2, hsp, hs, hc]

/-- Exhaustive classification of one token as seen by the scan. -/
theorem tok_cases (u : String) :
    u = "FILE" ∨
    (u ≠ "FILE" ∧ pyPrefix4 u = "LINE" ∧ (pySplitColon u).length ≠ 3) ∨
    (∃ x s c, u ≠ "FILE" ∧ pyPrefix4 u = "LINE" ∧ pySplitColon u = [x, s, c]) ∨
    (u ≠ "FILE" ∧ pyPrefix4 u ≠ "LINE") := by
  by_cases h1 : u = "FILE"
  · exact Or.inl h1
  by_cases h2 : pyPrefix4 u = "LINE"
  · by_cases h3 : (pySplitColon u).length = 3
    · rcases List.length_eq_three.mp h3 with ⟨x, s, c, hxsc⟩
      exact Or.inr (Or.inr (Or.inl ⟨x, s, c, h1, h2, hxsc⟩))
    · exact Or.inr (Or.inl ⟨h1, h2, h3⟩)
  · exact Or.inr (Or.inr (Or.inr ⟨h1, h2⟩))

/-! ### Unfolding equations for the line and loop levels -/

theorem processData_err (line : String) (T : List String) (e : ConvErr)
    (h : (scanLoop T line T 0 "" (-1) (-1)).2 = .error e) :
    processData line T = ((scanLoop T line T 0 "" (-1) (-1)).1, .error e) := by
  simp only [processData, h]

theorem processData_ok_invalid (line : String) (T : List String) (fn : String)
    (sl nl : Int) (h : (scanLoop T line T 0 "" (-1) (-1)).2 = .ok (fn, sl, nl))
    (hv : fn = "" ∨ sl = -1 ∨ nl = -1) :
    processData line T =
      ((scanLoop T line T 0 "" (-1) (-1)).1 ++ validateDiags line fn sl nl,
       .ok none) := by
  simp only [processData, h]
  rw [if_pos hv]

theorem processData_ok_valid (line : String) (T : List String) (fn : String)
    (sl nl : Int) (h : (scanLoop T line T 0 "" (-1) (-1)).2 = .ok (fn, sl, nl))
    (h1 : fn ≠ "") (h2 : sl ≠ -1) (h3 : nl ≠ -1) :
    processData line T =
      ((scanLoop T line T 0 "" (-1) (-1)).1 ++ validateDiags line fn sl nl,
       .ok (some (formatRecord sl nl fn))) := by
  simp only [processData, h]
  rw [if_neg (by tauto)]

theorem processLine_blank_true (line : String) (h : pySplitWs line = []) :
    processLine true line = (false, [""], [], none) := by
  simp [processLine, h]

theorem processLine_blank_false (line : String) (h : pySplitWs line = []) :
    processLine false line = (false, [], [], none) := by
  simp [processLine, h]

theorem processLine_data_err (wb : Bool) (line : String) (e : ConvErr)
    (h1 : pySplitWs line ≠ [])
    (h2 : (processData line (pySplitWs line)).2 = .error e) :
    processLine wb line =
      (wb, [], (processData line (pySplitWs line)).1, some e) := by
  simp [processLine, h1, h2]

theorem processLine_data_none (wb : Bool) (line : String)
    (h1 : pySplitWs line ≠ [])
    (h2 : (processData line (pySplitWs line)).2 = .ok none) :
    processLine wb line =
      (wb, [], (processData line (pySplitWs line)).1, none) := by
  simp [processLine, h1, h2]

theorem processLine_data_some (wb : Bool) (line rec : String)
    (h1 : pySplitWs line ≠ [])
    (h2 : (processData line (pySplitWs line)).2 = .ok (some rec)) :
    processLine wb line =
      (true, [rec], (processData line (pySplitWs line)).1, none) := by
  simp [processLine, h1, h2]

theorem convLoop_nil (wb : Bool) : convLoop wb [] = ([], [], none) := rfl

theorem convLoop_cons_err (wb : Bool) (l : String) (rest : List String)
    (e : ConvErr) (h : (processLine wb l).2.2.2 = some e) :
    convLoop wb (l :: rest) =
      ((processLine wb l).2.1, (processLine wb l).2.2.1, some e) := by
  simp only [convLoop, h]

theorem convLoop_cons_ok (wb : Bool) (l : String) (rest : List String)
    (h : (processLine wb l).2.2.2 = none) :
    convLoop wb (l :: rest) =
      ((processLine wb l).2.1 ++ (convLoop (processLine wb l).1 rest).1,
       (processLine wb l).2.2.1 ++ (convLoop (processLine wb l).1 rest).2.1,
       (convLoop (processLine wb l).1 rest).2.2) := by
  simp only [convLoop, h]

/-! ### Invariance lemmas for the token scan -/

/-- Scanning tokens that are neither `FILE` nor `LINE`-prefixed changes
nothing but the position. -/
theorem scan_neutral_run (full : List String) (line : String) :
    ∀ (ts : List String), (∀ u ∈ ts, u ≠ "FILE" ∧ pyPrefix4 u ≠ "LINE") →
    ∀ (rest : List String) (idx : Nat) (fn : String) (sl nl : Int),
      scanLoop full line (ts ++ rest) idx fn sl nl =
        scanLoop full line rest (idx + ts.length) fn sl nl := by
  intro ts
  induction ts with
  | nil => intro _ rest idx fn sl nl; simp
  | cons u ts ih =>
    intro hts rest idx fn sl nl
    have hu := hts u (by simp)
    rw [List.cons_append, scan_neutral full line u (ts ++ rest) idx fn sl nl
        hu.1 hu.2, ih (fun v hv => hts v (by simp [hv])) rest (idx + 1) fn sl nl]
    have harith : idx + 1 + ts.length = idx + (u :: ts).length := by
      simp
      omega
    rw [harith]

/-- A successful scan over tokens none of which is `FILE` leaves the filename
unchanged. -/
theorem scan_fn_const (full : List String) (line : String) :
    ∀ (ts : List String), (∀ u ∈ ts, u ≠ "FILE") →
    ∀ (idx : Nat) (fn : String) (sl nl : Int) (ds : List String)
      (fn2 : String) (sl2 nl2 : Int),
      scanLoop full line ts idx fn sl nl = (ds, .ok (fn2, sl2, nl2)) →
      fn2 = fn := by
  intro ts
  induction ts with
  | nil =>
    intro _ idx fn sl nl ds fn2 sl2 nl2 h
    rw [scan_nil] at h
    simp at h
    exact h.2.1.symm
  | cons u ts ih =>
    intro hts idx fn sl nl ds fn2 sl2 nl2 h
    have hu : u ≠ "FILE" := hts u (by simp)
    have hts2 : ∀ v ∈ ts, v ≠ "FILE" := fun v hv => hts v (by simp [hv])
    rcases tok_cases u with hF | ⟨h1, h2, h3⟩ | ⟨x, s, c, h1, h2, hsp⟩ | ⟨h1, h2⟩
    · exact absurd hF hu
    · rw [scan_badcolon full line u ts idx fn sl nl h1 h2 h3] at h
      rcases hq : scanLoop full line ts (idx + 1) fn sl nl with ⟨ds3, r3⟩
      rw [hq] at h
      simp at h
      exact ih hts2 (idx + 1) fn sl nl ds3 fn2 sl2 nl2 (by rw [hq, h.2])
    · cases hs : pyInt s with
      | none =>
        rw [scan_badint1 full line u x s c ts idx fn sl nl h2 hsp hs] at h
        simp at h
      | some sv =>
        cases hc : pyInt c with
        | none =>
          rw [scan_badint2 full line u x s c sv ts idx fn sl nl h2 hsp hs hc]
            at h
          simp at h
        | some cv =>
          rw [scan_goodline full line u x s c sv cv ts idx fn sl nl h2 hsp hs
              hc] at h
          exact ih hts2 (idx + 1) fn sv cv ds fn2 sl2 nl2 h
    · rw [scan_neutral full line u ts idx fn sl nl h1 h2] at h
      exact ih hts2 (idx + 1) fn sl nl ds fn2 sl2 nl2 h

/-- A successful scan over tokens none of which is a 3-part `LINE`-prefixed
token leaves the start and count fields unchanged. -/
theorem scan_slnl_const (full : List String) (line : String) :
    ∀ (ts : List String),
      (∀ u ∈ ts, ¬(pyPrefix4 u = "LINE" ∧ (pySplitColon u).length = 3)) →
    ∀ (idx : Nat) (fn : String) (sl nl : Int) (ds : List String)
      (fn2 : String) (sl2 nl2 : Int),
      scanLoop full line ts idx fn sl nl = (ds, .ok (fn2, sl2, nl2)) →
      sl2 = sl ∧ nl2 = nl := by
  intro ts
  induction ts with
  | nil =>
    intro _ idx fn sl nl ds fn2 sl2 nl2 h
    rw [scan_nil] at h
    simp at h
    exact ⟨h.2.2.1.symm, h.2.2.2.symm⟩
  | cons u ts ih =>
    intro hts idx fn sl nl ds fn2 sl2 nl2 h
    have hts2 : ∀ v ∈ ts, ¬(pyPrefix4 v = "LINE" ∧ (pySplitColon v).length = 3) :=
      fun v hv => hts v (by simp [hv])
    rcases tok_cases u with hF | ⟨h1, h2, h3⟩ | ⟨x, s, c, h1, h2, hsp⟩ | ⟨h1, h2⟩
    · subst hF
      cases hb : full[idx + 1]? with
      | none =>
        rw [scan_file_none full line ts idx fn sl nl hb] at h
        simp at h
      | some b =>
        rw [scan_file_some full line b ts idx fn sl nl hb] at h
        exact ih hts2 (idx + 1) b sl nl ds fn2 sl2 nl2 h
    · rw [scan_badcolon full line u ts idx fn sl nl h1 h2 h3] at h
      rcases hq : scanLoop full line ts (idx + 1) fn sl nl with ⟨ds3, r3⟩
      rw [hq] at h
      simp at h
      exact ih hts2 (idx + 1) fn sl nl ds3 fn2 sl2 nl2 (by rw [hq, h.2])
    · have hlen : (pySplitColon u).length = 3 := by rw [hsp]; rfl
      exact absurd ⟨h2, hlen⟩ (hts u (by simp))
    · rw [scan_neutral full line u ts idx fn sl nl h1 h2] at h
      exact ih hts2 (idx + 1) fn sl nl ds fn2 sl2 nl2 h

/-- When the suffix being scanned is the drop of the whole token list at the
running position, the look-ahead is the head of the tail and the invariant is
preserved by one step. -/
theorem drop_cons_next (full : List String) (idx : Nat) (u : String)
    (rest : List String) (h : full.drop idx = u :: rest) :
    full[idx + 1]? = rest.head? ∧ full.drop (idx + 1) = rest := by
  constructor
  · have h1 : (full.drop idx)[1]? = full[idx + 1]? := List.getElem?_drop full idx 1
    rw [← h1, h]
    cases rest <;> simp
  · have h2 : (full.drop idx).drop 1 = full.drop (idx + 1) := List.drop_drop 1 idx full
    rw [← h2, h]
    simp

/-- When no later token equals `FILE`, a successful scan ends with the
filename taken from the position right after the last `FILE` token: the later
occurrence of `FILE` overwrites any earlier one. -/
theorem scan_last_file (full : List String) (line : String) :
    ∀ (A B : List String) (idx : Nat) (fn : String) (sl nl : Int)
      (ds : List String) (fn2 : String) (sl2 nl2 : Int),
      (∀ u ∈ B, u ≠ "FILE") →
      scanLoop full line (A ++ "FILE" :: B) idx fn sl nl =
        (ds, .ok (fn2, sl2, nl2)) →
      full[idx + A.length + 1]? = some fn2 := by
  intro A
  induction A with
  | nil =>
    intro B idx fn sl nl ds fn2 sl2 nl2 hB h
    simp only [List.nil_append] at h
    cases hb : full[idx + 1]? with
    | none =>
      rw [scan_file_none full line B idx fn sl nl hb] at h
      simp at h
    | some b =>
      rw [scan_file_some full line b B idx fn sl nl hb] at h
      have hfn := scan_fn_const full line B hB (idx + 1) b sl nl ds fn2 sl2 nl2 h
      subst hfn
      simpa using hb
  | cons a A ih =>
    intro B idx fn sl nl ds fn2 sl2 nl2 hB h
    rw [List.cons_append] at h
    have harith : idx + (a :: A).length + 1 = idx + 1 + A.length + 1 := by
      simp
      omega
    rw [harith]
    rcases tok_cases a with hF | ⟨h1, h2, h3⟩ | ⟨x, s, c, h1, h2, hsp⟩ | ⟨h1, h2⟩
    · subst hF
      cases hb : full[idx + 1]? with
      | none =>
        rw [scan_file_none full line (A ++ "FILE" :: B) idx fn sl nl hb] at h
        simp at h
      | some b =>
        rw [scan_file_some full line b (A ++ "FILE" :: B) idx fn sl nl hb] at h
        exact ih B (idx + 1) b sl nl ds fn2 sl2 nl2 hB h
    · rw [scan_badcolon full line a (A ++ "FILE" :: B) idx fn sl nl h1 h2 h3]
        at h
      rcases hq : scanLoop full line (A ++ "FILE" :: B) (idx + 1) fn sl nl
        with ⟨ds3, r3⟩
      rw [hq] at h
      simp at h
      exact ih B (idx + 1) fn sl nl ds3 fn2 sl2 nl2 hB (by rw [hq, h.2])
    · cases hs : pyInt s with
      | none =>
        rw [scan_badint1 full line a x s c (A ++ "FILE" :: B) idx fn sl nl h2
            hsp hs] at h
        simp at h
      | some sv =>
        cases hc : pyInt c with
        | none =>
          rw [scan_badint2 full line a x s c sv (A ++ "FILE" :: B) idx fn sl nl
              h2 hsp hs hc] at h
          simp at h
        | some cv =>
          rw [scan_goodline full line a x s c sv cv (A ++ "FILE" :: B) idx fn
              sl nl h2 hsp hs hc] at h
          exact ih B (idx + 1) fn sv cv ds fn2 sl2 nl2 hB h
    · rw [scan_neutral full line a (A ++ "FILE" :: B) idx fn sl nl h1 h2] at h
      exact ih B (idx + 1) fn sl nl ds fn2 sl2 nl2 hB h

/-- When no later token is a 3-part `LINE`-prefixed token, a successful scan
ends with the start and count of the last valid `LINE` token: the later valid
occurrence overwrites any earlier one. -/
theorem scan_last_goodline (full : List String) (line t x s c : String)
    (sv cv : Int) (ht2 : pyPrefix4 t = "LINE") (hsp : pySplitColon t = [x, s, c])
    (hs : pyInt s = some sv) (hc : pyInt c = some cv) :
    ∀ (A B : List String) (idx : Nat) (fn : String) (sl nl : Int)
      (ds : List String) (fn2 : String) (sl2 nl2 : Int),
      (∀ u ∈ B, ¬(pyPrefix4 u = "LINE" ∧ (pySplitColon u).length = 3)) →
      scanLoop full line (A ++ t :: B) idx fn sl nl = (ds, .ok (fn2, sl2, nl2)) →
      sl2 = sv ∧ nl2 = cv := by
  intro A
  induction A with
  | nil =>
    intro B idx fn sl nl ds fn2 sl2 nl2 hB h
    simp only [List.nil_append] at h
    rw [scan_goodline full line t x s c sv cv B idx fn sl nl ht2 hsp hs hc] at h
    exact scan_slnl_const full line B hB (idx + 1) fn sv cv ds fn2 sl2 nl2 h
  | cons a A ih =>
    intro B idx fn sl nl ds fn2 sl2 nl2 hB h
    rw [List.cons_append] at h
    rcases tok_cases a with hF | ⟨h1, h2, h3⟩ | ⟨x2, s2, c2, h1, h2, hsp2⟩ |
      ⟨h1, h2⟩
    · subst hF
      cases hb : full[idx + 1]? with
      | none =>
        rw [scan_file_none full line (A ++ t :: B) idx fn sl nl hb] at h
        simp at h
      | some b =>
        rw [scan_file_some full line b (A ++ t :: B) idx fn sl nl hb] at h
        exact ih B (idx + 1) b sl nl ds fn2 sl2 nl2 hB h
    · rw [scan_badcolon full line a (A ++ t :: B) idx fn sl nl h1 h2 h3] at h
      rcases hq : scanLoop full line (A ++ t :: B) (idx + 1) fn sl nl
        with ⟨ds3, r3⟩
      rw [hq] at h
      simp at h
      exact ih B (idx + 1) fn sl nl ds3 fn2 sl2 nl2 hB (by rw [hq, h.2])
    · cases hs2 : pyInt s2 with
      | none =>
        rw [scan_badint1 full line a x2 s2 c2 (A ++ t :: B) idx fn sl nl h2
            hsp2 hs2] at h
        simp at h
      | some sv2 =>
        cases hc2 : pyInt c2 with
        | none =>
          rw [scan_badint2 full line a x2 s2 c2 sv2 (A ++ t :: B) idx fn sl nl
              h2 hsp2 hs2 hc2] at h
          simp at h
        | some cv2 =>
          rw [scan_goodline full line a x2 s2 c2 sv2 cv2 (A ++ t :: B) idx fn
              sl nl h2 hsp2 hs2 hc2] at h
          exact ih B (idx + 1) fn sv2 cv2 ds fn2 sl2 nl2 hB h
    · rw [scan_neutral full line a (A ++ t :: B) idx fn sl nl h1 h2] at h
      exact ih B (idx + 1) fn sl nl ds fn2 sl2 nl2 hB h

/-- A scan over a token list that contains a 3-part `LINE`-prefixed token with
a non-integer part always aborts with a ValueError. -/
theorem scan_badint_mem (full : List String) (line t x s c : String)
    (ht2 : pyPrefix4 t = "LINE") (hsp : pySplitColon t = [x, s, c])
    (hbad : pyInt s = none ∨ pyInt c = none) :
    ∀ (ts : List String), t ∈ ts → ∀ (idx : Nat), full.drop idx = ts →
    ∀ (fn : String) (sl nl : Int),
      ∃ v, (scanLoop full line ts idx fn sl nl).2 = .error (.valueError v) := by
  intro ts
  induction ts with
  | nil =>
    intro hmem
    exact absurd hmem (List.not_mem_nil t)
  | cons u rest ih =>
    intro hmem idx hdrop fn sl nl
    obtain ⟨hnext, hdrop2⟩ := drop_cons_next full idx u rest hdrop
    by_cases hut : u = t
    · subst hut
      cases hs : pyInt s with
      | none =>
        rw [scan_badint1 full line u x s c rest idx fn sl nl ht2 hsp hs]
        exact ⟨s, rfl⟩
      | some sv =>
        have hcn : pyInt c = none := by
          rcases hbad with hb | hb
          · rw [hs] at hb
            cases hb
          · exact hb
        rw [scan_badint2 full line u x s c sv rest idx fn sl nl ht2 hsp hs hcn]
        exact ⟨c, rfl⟩
    · have hmem2 : t ∈ rest := by
        rcases List.mem_cons.mp hmem with h | h
        · exact absurd h.symm hut
        · exact h
      rcases tok_cases u with hF | ⟨h1, h2, h3⟩ | ⟨x2, s2, c2, h1, h2, hsp2⟩ |
        ⟨h1, h2⟩
      · subst hF
        rcases rest with _ | ⟨r0, rest2⟩
        · cases hmem2
        · have hb : full[idx + 1]? = some r0 := by rw [hnext]; rfl
          rw [scan_file_some full line r0 (r0 :: rest2) idx fn sl nl hb]
          exact ih hmem2 (idx + 1) hdrop2 r0 sl nl
      · rw [scan_badcolon full line u rest idx fn sl nl h1 h2 h3]
        simpa using ih hmem2 (idx + 1) hdrop2 fn sl nl
      · cases hs2 : pyInt s2 with
        | none =>
          rw [scan_badint1 full line u x2 s2 c2 rest idx fn sl nl h2 hsp2 hs2]
          exact ⟨s2, rfl⟩
        | some sv2 =>
          cases hc2 : pyInt c2 with
          | none =>
            rw [scan_badint2 full line u x2 s2 c2 sv2 rest idx fn sl nl h2
                hsp2 hs2 hc2]
            exact ⟨c2, rfl⟩
          | some cv2 =>
            rw [scan_goodline full line u x2 s2 c2 sv2 cv2 rest idx fn sl nl h2
                hsp2 hs2 hc2]
            exact ih hmem2 (idx + 1) hdrop2 fn sv2 cv2
      · rw [scan_neutral full line u rest idx fn sl nl h1 h2]
        exact ih hmem2 (idx + 1) hdrop2 fn sl nl

/-- A scan over a token list whose last token is `FILE` never completes: it
aborts with some uncaught exception. -/
theorem scan_last_FILE_err (full : List String) (line : String) :
    ∀ (ts : List String), ts.getLast? = some "FILE" →
    ∀ (idx : Nat), full.drop idx = ts →
    ∀ (fn : String) (sl nl : Int),
      ∃ e, (scanLoop full line ts idx fn sl nl).2 = .error e := by
  intro ts
  induction ts with
  | nil =>
    intro hlast
    simp at hlast
  | cons u rest ih =>
    intro hlast idx hdrop fn sl nl
    obtain ⟨hnext, hdrop2⟩ := drop_cons_next full idx u rest hdrop
    rcases rest with _ | ⟨r0, rest2⟩
    · simp at hlast
      subst hlast
      have hb : full[idx + 1]? = none := by rw [hnext]; rfl
      rw [scan_file_none full line [] idx fn sl nl hb]
      exact ⟨.indexError, rfl⟩
    · rw [List.getLast?_cons_cons] at hlast
      rcases tok_cases u with hF | ⟨h1, h2, h3⟩ | ⟨x2, s2, c2, h1, h2, hsp2⟩ |
        ⟨h1, h2⟩
      · subst hF
        have hb : full[idx + 1]? = some r0 := by rw [hnext]; rfl
        rw [scan_file_some full line r0 (r0 :: rest2) idx fn sl nl hb]
        exact ih hlast (idx + 1) hdrop2 r0 sl nl
      · rw [scan_badcolon full line u (r0 :: rest2) idx fn sl nl h1 h2 h3]
        simpa using ih hlast (idx + 1) hdrop2 fn sl nl
      · cases hs2 : pyInt s2 with
        | none =>
          rw [scan_badint1 full line u x2 s2 c2 (r0 :: rest2) idx fn sl nl h2
              hsp2 hs2]
          exact ⟨.valueError s2, rfl⟩
        | some sv2 =>
          cases hc2 : pyInt c2 with
          | none =>
            rw [scan_badint2 full line u x2 s2 c2 sv2 (r0 :: rest2) idx fn sl
                nl h2 hsp2 hs2 hc2]
            exact ⟨.valueError c2, rfl⟩
          | some cv2 =>
            rw [scan_goodline full line u x2 s2 c2 sv2 cv2 (r0 :: rest2) idx fn
                sl nl h2 hsp2 hs2 hc2]
            exact ih hlast (idx + 1) hdrop2 fn sv2 cv2
      · rw [scan_neutral full line u (r0 :: rest2) idx fn sl nl h1 h2]
        exact ih hlast (idx + 1) hdrop2 fn sl nl

/-- When additionally every 3-part colon split in the list has integer parts,
the abort of a scan whose last token is `FILE` is exactly the IndexError of
the unguarded look-ahead. -/
theorem scan_last_FILE_indexError (full : List String) (line : String) :
    ∀ (ts : List String), ts.getLast? = some "FILE" →
      (∀ u ∈ ts, ∀ x s c, pySplitColon u = [x, s, c] →
        pyInt s ≠ none ∧ pyInt c ≠ none) →
    ∀ (idx : Nat), full.drop idx = ts →
    ∀ (fn : String) (sl nl : Int),
      (scanLoop full line ts idx fn sl nl).2 = .error .indexError := by
  intro ts
  induction ts with
  | nil =>
    intro hlast
    simp at hlast
  | cons u rest ih =>
    intro hlast hgood idx hdrop fn sl nl
    obtain ⟨hnext, hdrop2⟩ := drop_cons_next full idx u rest hdrop
    have hgood2 : ∀ v ∈ rest, ∀ x s c, pySplitColon v = [x, s, c] →
        pyInt s ≠ none ∧ pyInt c ≠ none :=
      fun v hv => hgood v (by simp [hv])
    rcases rest with _ | ⟨r0, rest2⟩
    · simp at hlast
      subst hlast
      have hb : full[idx + 1]? = none := by rw [hnext]; rfl
      rw [scan_file_none full line [] idx fn sl nl hb]
    · rw [List.getLast?_cons_cons] at hlast
      rcases tok_cases u with hF | ⟨h1, h2, h3⟩ | ⟨x2, s2, c2, h1, h2, hsp2⟩ |
        ⟨h1, h2⟩
      · subst hF
        have hb : full[idx + 1]? = some r0 := by rw [hnext]; rfl
        rw [scan_file_some full line r0 (r0 :: rest2) idx fn sl nl hb]
        exact ih hlast hgood2 (idx + 1) hdrop2 r0 sl nl
      · rw [scan_badcolon full line u (r0 :: rest2) idx fn sl nl h1 h2 h3]
        simpa using ih hlast hgood2 (idx + 1) hdrop2 fn sl nl
      · have hpars := hgood u (by simp) x2 s2 c2 hsp2
        cases hs2 : pyInt s2 with
        | none => exact absurd hs2 hpars.1
        | some sv2 =>
          cases hc2 : pyInt c2 with
          | none => exact absurd hc2 hpars.2
          | some cv2 =>
            rw [scan_goodline full line u x2 s2 c2 sv2 cv2 (r0 :: rest2) idx fn
                sl nl h2 hsp2 hs2 hc2]
            exact ih hlast hgood2 (idx + 1) hdrop2 fn sv2 cv2
      · rw [scan_neutral full line u (r0 :: rest2) idx fn sl nl h1 h2]
        exact ih hlast hgood2 (idx + 1) hdrop2 fn sl nl

/-- When the token list contains a malformed `LINE`-prefixed token and every
`LINE`-prefixed token in it is malformed, the scan prints the bad-delimiter
diagnostic. -/
theorem scan_badcolon_diag (full : List String) (line t : String)
    (ht2 : pyPrefix4 t = "LINE") :
    ∀ (ts : List String), t ∈ ts →
      (∀ u ∈ ts, pyPrefix4 u = "LINE" → (pySplitColon u).length ≠ 3) →
    ∀ (idx : Nat), full.drop idx = ts →
    ∀ (fn : String) (sl nl : Int),
      ("BAD LINE DELIMITER AT LINE: " ++ line) ∈
        (scanLoop full line ts idx fn sl nl).1 := by
  intro ts
  induction ts with
  | nil =>
    intro hmem
    exact absurd hmem (List.not_mem_nil t)
  | cons u rest ih =>
    intro hmem hall idx hdrop fn sl nl
    obtain ⟨hnext, hdrop2⟩ := drop_cons_next full idx u rest hdrop
    have hall2 : ∀ v ∈ rest, pyPrefix4 v = "LINE" → (pySplitColon v).length ≠ 3 :=
      fun v hv => hall v (by simp [hv])
    by_cases hu2 : pyPrefix4 u = "LINE"
    · have hu3 := hall u (by simp) hu2
      have h1 : u ≠ "FILE" := ne_FILE_of_prefix4_LINE hu2
      rw [scan_badcolon full line u rest idx fn sl nl h1 hu2 hu3]
      simp
    · have hut : u ≠ t := fun he => hu2 (by rw [he]; exact ht2)
      have hmem2 : t ∈ rest := by
        rcases List.mem_cons.mp hmem with h | h
        · exact absurd h.symm hut
        · exact h
      by_cases hF : u = "FILE"
      · subst hF
        rcases rest with _ | ⟨r0, rest2⟩
        · cases hmem2
        · have hb : full[idx + 1]? = some r0 := by rw [hnext]; rfl
          rw [scan_file_some full line r0 (r0 :: rest2) idx fn sl nl hb]
          exact ih hmem2 hall2 (idx + 1) hdrop2 r0 sl nl
      · rw [scan_neutral full line u rest idx fn sl nl hF hu2]
        exact ih hmem2 hall2 (idx + 1) hdrop2 fn sl nl

/-- A line that aborts for every incoming flag value makes the whole run
abort whenever it occurs in the input. -/
theorem convLoop_err_of_mem (line : String)
    (hline : ∀ wb, (processLine wb line).2.2.2 ≠ none) :
    ∀ (lines : List String), line ∈ lines → ∀ (wb : Bool),
      (convLoop wb lines).2.2 ≠ none := by
  intro lines
  induction lines with
  | nil =>
    intro h
    exact absurd h (List.not_mem_nil line)
  | cons l rest ih =>
    intro hmem wb
    cases he : (processLine wb l).2.2.2 with
    | some e =>
      rw [convLoop_cons_err wb l rest e he]
      simp
    | none =>
      rw [convLoop_cons_ok wb l rest he]
      have hmem2 : line ∈ rest := by
        rcases List.mem_cons.mp hmem with h | h
        · subst h
          exact absurd he (hline wb)
        · exact h
      simpa using ih hmem2 (processLine wb l).1

/-- A run of blank lines entered with a false flag writes nothing and keeps
the flag false. -/
theorem convLoop_blanks :
    ∀ (bs : List String), (∀ b ∈ bs, pySplitWs b = []) →
    ∀ (rest : List String), convLoop false (bs ++ rest) = convLoop false rest := by
  intro bs
  induction bs with
  | nil =>
    intro _ rest
    simp
  | cons b bs ih =>
    intro hbs rest
    have hpl : processLine false b = (false, [], [], none) :=
      processLine_blank_false b (hbs b (by simp))
    rw [List.cons_append, convLoop_cons_ok false b (bs ++ rest) (by rw [hpl])]
    rw [hpl, ih (fun v hv => hbs v (by simp [hv])) rest]
    simp

/-- A record actually written for a data-bearing line is never the empty
string. -/
theorem processData_some_ne_empty (line : String) (T : List String)
    (rec : String) (h : (processData line T).2 = .ok (some rec)) : rec ≠ "" := by
  cases hsc : (scanLoop T line T 0 "" (-1) (-1)).2 with
  | error e =>
    rw [processData_err line T e hsc] at h
    simp at h
  | ok v =>
    obtain ⟨fn, sl, nl⟩ := v
    by_cases hv : fn = "" ∨ sl = -1 ∨ nl = -1
    · rw [processData_ok_invalid line T fn sl nl hsc hv] at h
      simp at h
    · push_neg at hv
      rw [processData_ok_valid line T fn sl nl hsc hv.1 hv.2.1 hv.2.2] at h
      simp at h
      rw [← h]
      exact formatRecord_ne_empty sl nl fn

/-- Shape invariant of the written output: adjacent lines are never both
blank and, when the incoming flag is false, the first written line is not
blank. -/
theorem convLoop_inv :
    ∀ (lines : List String) (wb : Bool),
      List.Chain' (fun a b => a ≠ "" ∨ b ≠ "") (convLoop wb lines).1 ∧
      (wb = false → (convLoop wb lines).1.head? ≠ some "") := by
  intro lines
  induction lines with
  | nil =>
    intro wb
    simp [convLoop_nil]
  | cons l rest ih =>
    intro wb
    by_cases hs : pySplitWs l = []
    · cases wb with
      | true =>
        have hpl := processLine_blank_true l hs
        have h1 : convLoop true (l :: rest) =
            ("" :: (convLoop false rest).1, (convLoop false rest).2.1,
             (convLoop false rest).2.2) := by
          rw [convLoop_cons_ok true l rest (by rw [hpl]), hpl]
          simp
        rw [h1]
        refine ⟨?_, by simp⟩
        rw [List.chain'_cons']
        refine ⟨?_, (ih false).1⟩
        intro y hy
        right
        intro hy2
        rw [hy2] at hy
        exact (ih false).2 rfl hy
      | false =>
        have hpl := processLine_blank_false l hs
        have h1 : convLoop false (l :: rest) =
            ((convLoop false rest).1, (convLoop false rest).2.1,
             (convLoop false rest).2.2) := by
          rw [convLoop_cons_ok false l rest (by rw [hpl]), hpl]
          simp
        rw [h1]
        exact ih false
    · cases hr : (processData l (pySplitWs l)).2 with
      | error e =>
        have hpl := processLine_data_err wb l e hs hr
        have h1 : convLoop wb (l :: rest) =
            ([], (processData l (pySplitWs l)).1, some e) := by
          rw [convLoop_cons_err wb l rest e (by rw [hpl]), hpl]
        rw [h1]
        simp
      | ok o =>
        cases o with
        | none =>
          have hpl := processLine_data_none wb l hs hr
          have h1 : convLoop wb (l :: rest) =
              ((convLoop wb rest).1,
               (processData l (pySplitWs l)).1 ++ (convLoop wb rest).2.1,
               (convLoop wb rest).2.2) := by
            rw [convLoop_cons_ok wb l rest (by rw [hpl]), hpl]
            simp
          rw [h1]
          exact ih wb
        | some rec =>
          have hrec : rec ≠ "" := processData_some_ne_empty l (pySplitWs l) rec hr
          have hpl := processLine_data_some wb l rec hs hr
          have h1 : convLoop wb (l :: rest) =
              (rec :: (convLoop true rest).1,
               (processData l (pySplitWs l)).1 ++ (convLoop true rest).2.1,
               (convLoop true rest).2.2) := by
            rw [convLoop_cons_ok wb l rest (by rw [hpl]), hpl]
            simp
          rw [h1]
          refine ⟨?_, ?_⟩
          · rw [List.chain'_cons']
            exact ⟨fun y _ => Or.inl hrec, (ih true).1⟩
          · intro _
            simp [hrec]

/-- The element right after a distinguished position in an append. -/
theorem getElem?_append_cons_cons (A : List String) (a b : String)
    (R : List String) : (A ++ a :: b :: R)[A.length + 1]? = some b := by
  rw [List.getElem?_append_right (by omega)]
  simp

/-- A scan of neutral tokens only returns the incoming state unchanged. -/
theorem scan_neutral_all (full : List String) (line : String) :
    ∀ (ts : List String), (∀ u ∈ ts, u ≠ "FILE" ∧ pyPrefix4 u ≠ "LINE") →
    ∀ (idx : Nat) (fn : String) (sl nl : Int),
      scanLoop full line ts idx fn sl nl = ([], .ok (fn, sl, nl)) := by
  intro ts
  induction ts with
  | nil => intro _ idx fn sl nl; rfl
  | cons u ts ih =>
    intro hts idx fn sl nl
    have hu := hts u (by simp)
    rw [scan_neutral full line u ts idx fn sl nl hu.1 hu.2]
    exact ih (fun v hv => hts v (by simp [hv])) (idx + 1) fn sl nl

/-- Scan of a token list made of one `FILE name` pair and one well-formed
`LINE:<s>:<c>` token (in either order) among otherwise neutral tokens: it
completes with exactly those three fields. -/
theorem scan_decomp_result (full : List String) (line : String)
    (pre mid post : List String) (name t x s c : String) (sv cv : Int)
    (ht2 : pyPrefix4 t = "LINE") (hsp : pySplitColon t = [x, s, c])
    (hs : pyInt s = some sv) (hc : pyInt c = some cv)
    (hname : name ≠ "FILE" ∧ pyPrefix4 name ≠ "LINE")
    (hpre : ∀ u ∈ pre, u ≠ "FILE" ∧ pyPrefix4 u ≠ "LINE")
    (hmid : ∀ u ∈ mid, u ≠ "FILE" ∧ pyPrefix4 u ≠ "LINE")
    (hpost : ∀ u ∈ post, u ≠ "FILE" ∧ pyPrefix4 u ≠ "LINE")
    (hdec : full = pre ++ "FILE" :: name :: (mid ++ t :: post) ∨
            full = pre ++ t :: (mid ++ "FILE" :: name :: post)) :
    scanLoop full line full 0 "" (-1) (-1) = ([], .ok (name, sv, cv)) := by
  rcases hdec with hdec | hdec
  · subst hdec
    rw [scan_neutral_run _ line pre hpre
        ("FILE" :: name :: (mid ++ t :: post)) 0 "" (-1) (-1)]
    have hb : (pre ++ "FILE" :: name :: (mid ++ t :: post))[0 + pre.length + 1]? =
        some name := by
      simpa using getElem?_append_cons_cons pre "FILE" name (mid ++ t :: post)
    rw [scan_file_some _ line name (name :: (mid ++ t :: post)) (0 + pre.length)
        "" (-1) (-1) hb]
    have hnm : ∀ u ∈ (name :: mid), u ≠ "FILE" ∧ pyPrefix4 u ≠ "LINE" := by
      intro u hu
      rcases List.mem_cons.mp hu with h | h
      · subst h
        exact hname
      · exact hmid u h
    have hshape : name :: (mid ++ t :: post) = (name :: mid) ++ (t :: post) := by
      simp
    rw [hshape, scan_neutral_run _ line (name :: mid) hnm (t :: post) _
        name (-1) (-1)]
    rw [scan_goodline _ line t x s c sv cv post _ name (-1) (-1) ht2 hsp hs hc]
    rw [scan_neutral_all _ line post hpost _ name sv cv]
  · subst hdec
    rw [scan_neutral_run _ line pre hpre
        (t :: (mid ++ "FILE" :: name :: post)) 0 "" (-1) (-1)]
    rw [scan_goodline _ line t x s c sv cv (mid ++ "FILE" :: name :: post)
        (0 + pre.length) "" (-1) (-1) ht2 hsp hs hc]
    rw [scan_neutral_run _ line mid hmid ("FILE" :: name :: post)
        (0 + pre.length + 1) "" sv cv]
    have hb : (pre ++ t :: (mid ++ "FILE" :: name :: post))[0 + pre.length + 1 +
        mid.length + 1]? = some name := by
      have hsh : pre ++ t :: (mid ++ "FILE" :: name :: post) =
          (pre ++ t :: mid) ++ "FILE" :: name :: post := by
        simp
      have h2 := getElem?_append_cons_cons (pre ++ t :: mid) "FILE" name post
      rw [← hsh] at h2
      have hlen : (pre ++ t :: mid).length + 1 = 0 + pre.length + 1 +
          mid.length + 1 := by
        simp
        omega
      rw [hlen] at h2
      exact h2
    rw [scan_file_some _ line name (name :: post) _ "" sv cv hb]
    have hnp : ∀ u ∈ (name :: post), u ≠ "FILE" ∧ pyPrefix4 u ≠ "LINE" := by
      intro u hu
      rcases List.mem_cons.mp hu with h | h
      · subst h
        exact hname
      · exact hpost u h
    rw [scan_neutral_all _ line (name :: post) hnp _ name sv cv]

/-! ### The claims -/

/-- C1 counterexample: the line `FILE foo.c LINE:10:5 FILE bar.c` is
data-bearing, contains the adjacent tokens `FILE foo.c` and the token
`LINE:10:5` with other tokens interspersed, yet the written record is
`10,5,bar.c`, not `10,5,foo.c`: the claim fails for arbitrary interspersed
tokens. -/
theorem c1_counterexample :
    convert_file ["FILE foo.c LINE:10:5 FILE bar.c"] =
      (["10,5,bar.c"], [], none) ∧
    "10,5,foo.c" ∉ (convert_file ["FILE foo.c LINE:10:5 FILE bar.c"]).1 := by
  refine ⟨rfl, ?_⟩
  decide

/-- C1 (amended): for a data-bearing line whose tokens are the adjacent pair
`FILE foo.c` and the token `LINE:10:5` in either order, all other tokens
being neither `FILE` nor `LINE`-prefixed, the line writes exactly the output
record `10,5,foo.c` (and no diagnostic), for any incoming flag value. -/
theorem c1_adjacent_file_line_record (line : String) (pre mid post : List String)
    (wb : Bool)
    (hdec : pySplitWs line =
        pre ++ "FILE" :: "foo.c" :: (mid ++ "LINE:10:5" :: post) ∨
      pySplitWs line = pre ++ "LINE:10:5" :: (mid ++ "FILE" :: "foo.c" :: post))
    (hpre : ∀ u ∈ pre, u ≠ "FILE" ∧ pyPrefix4 u ≠ "LINE")
    (hmid : ∀ u ∈ mid, u ≠ "FILE" ∧ pyPrefix4 u ≠ "LINE")
    (hpost : ∀ u ∈ post, u ≠ "FILE" ∧ pyPrefix4 u ≠ "LINE") :
    processLine wb line = (true, ["10,5,foo.c"], [], none) := by
  have hscan := scan_decomp_result (pySplitWs line) line pre mid post "foo.c"
    "LINE:10:5" "LINE" "10" "5" 10 5 rfl rfl rfl rfl (by decide) hpre hmid
    hpost hdec
  have hne : pySplitWs line ≠ [] := by
    rcases hdec with h | h <;> rw [h] <;> intro hc <;> simp at hc
  have hv : validateDiags line "foo.c" 10 5 = [] := rfl
  have hf : formatRecord 10 5 "foo.c" = "10,5,foo.c" := rfl
  have hpd : processData line (pySplitWs line) = ([], .ok (some "10,5,foo.c")) := by
    rw [processData_ok_valid line (pySplitWs line) "foo.c" 10 5 (by rw [hscan])
        (by decide) (by decide) (by decide), hscan, hv, hf]
    simp
  rw [processLine_data_some wb line "10,5,foo.c" hne (by rw [hpd]), hpd]

/-- C1 witness: a concrete line of the amended shape. -/
theorem c1_witness :
    processLine false "x FILE foo.c y LINE:10:5 z" =
      (true, ["10,5,foo.c"], [], none) :=
  c1_adjacent_file_line_record "x FILE foo.c y LINE:10:5 z" ["x"] ["y"] ["z"]
    false (Or.inl rfl) (by decide) (by decide) (by decide)

/-- C2: two data-bearing lines that each produce a record, separated by one
or more blank lines, yield exactly one blank output line between their two
records, in any incoming state and any continuation. -/
theorem c2_single_blank_separator (wb : Bool) (d1 d2 : String)
    (bs : List String) (hbs : bs ≠ []) (hblank : ∀ b ∈ bs, pySplitWs b = [])
    (r1 r2 : String) (ds1 ds2 : List String)
    (h1 : pySplitWs d1 ≠ [])
    (hp1 : processData d1 (pySplitWs d1) = (ds1, .ok (some r1)))
    (h2 : pySplitWs d2 ≠ [])
    (hp2 : processData d2 (pySplitWs d2) = (ds2, .ok (some r2)))
    (rest : List String) :
    convLoop wb (d1 :: (bs ++ d2 :: rest)) =
      (r1 :: "" :: r2 :: (convLoop true rest).1,
       ds1 ++ (ds2 ++ (convLoop true rest).2.1),
       (convLoop true rest).2.2) := by
  rcases bs with _ | ⟨b, bs2⟩
  · exact absurd rfl hbs
  have hpl1 := processLine_data_some wb d1 r1 h1 (by rw [hp1])
  have hplb := processLine_blank_true b (hblank b (by simp))
  have hpl2 := processLine_data_some false d2 r2 h2 (by rw [hp2])
  have hb2 : ∀ v ∈ bs2, pySplitWs v = [] := fun v hv => hblank v (by simp [hv])
  have e1 : convLoop wb (d1 :: (b :: bs2 ++ d2 :: rest)) =
      (r1 :: (convLoop true (b :: (bs2 ++ d2 :: rest))).1,
       ds1 ++ (convLoop true (b :: (bs2 ++ d2 :: rest))).2.1,
       (convLoop true (b :: (bs2 ++ d2 :: rest))).2.2) := by
    rw [convLoop_cons_ok wb d1 (b :: bs2 ++ d2 :: rest) (by rw [hpl1]), hpl1]
    simp [hp1]
  have e2 : convLoop true (b :: (bs2 ++ d2 :: rest)) =
      ("" :: (convLoop false (bs2 ++ d2 :: rest)).1,
       (convLoop false (bs2 ++ d2 :: rest)).2.1,
       (convLoop false (bs2 ++ d2 :: rest)).2.2) := by
    rw [convLoop_cons_ok true b (bs2 ++ d2 :: rest) (by rw [hplb]), hplb]
    simp
  have e3 : convLoop false (bs2 ++ d2 :: rest) = convLoop false (d2 :: rest) :=
    convLoop_blanks bs2 hb2 (d2 :: rest)
  have e4 : convLoop false (d2 :: rest) =
      (r2 :: (convLoop true rest).1, ds2 ++ (convLoop true rest).2.1,
       (convLoop true rest).2.2) := by
    rw [convLoop_cons_ok false d2 rest (by rw [hpl2]), hpl2]
    simp [hp2]
  rw [e1, e2, e3, e4]

/-- C2 witness: two records separated by two blank input lines give exactly
one blank output line. -/
theorem c2_witness :
    convLoop false (["FILE a.c LINE:1:2"] ++ (["", " "] ++
        ["FILE b.c LINE:3:4"])) =
      ("1,2,a.c" :: "" :: "3,4,b.c" :: (convLoop true []).1,
       [] ++ ([] ++ (convLoop true []).2.1), (convLoop true []).2.2) :=
  c2_single_blank_separator false "FILE a.c LINE:1:2" "FILE b.c LINE:3:4"
    ["", " "] (by decide) (by decide) "1,2,a.c" "3,4,b.c" [] []
    (by decide) rfl (by decide) rfl []

/-- C3: for every input, the written output never starts with a blank line
and never holds two adjacent blank lines. -/
theorem c3_no_leading_or_adjacent_blank (lines : List String) :
    (convert_file lines).1.head? ≠ some "" ∧
    List.Chain' (fun a b => a ≠ "" ∨ b ≠ "") (convert_file lines).1 :=
  ⟨(convLoop_inv lines false).2 rfl, (convLoop_inv lines false).1⟩

/-- C3 witness: the invariant at a concrete input with leading and
consecutive blank lines. -/
theorem c3_witness :
    (convert_file ["", "", "FILE a.c LINE:1:2", "", ""]).1.head? ≠ some "" ∧
    List.Chain' (fun a b => a ≠ "" ∨ b ≠ "")
      (convert_file ["", "", "FILE a.c LINE:1:2", "", ""]).1 :=
  c3_no_leading_or_adjacent_blank ["", "", "FILE a.c LINE:1:2", "", ""]

/-- C4 counterexample: the line `FILE a.c LINE:10:5:extra LINE:1:2` contains
a `LINE`-prefixed token that does not split into exactly 3 colon parts, yet
the record `1,2,a.c` is written for that line: the later valid token sets the
fields, so the claim fails when another valid `LINE` token is present. -/
theorem c4_counterexample :
    convert_file ["FILE a.c LINE:10:5:extra LINE:1:2"] =
      (["1,2,a.c"],
       ["BAD LINE DELIMITER AT LINE: FILE a.c LINE:10:5:extra LINE:1:2"],
       none) ∧
    (convert_file ["FILE a.c LINE:10:5:extra LINE:1:2"]).1 ≠ [] := by
  refine ⟨rfl, ?_⟩
  decide

/-- C4 (amended): for a data-bearing line containing a malformed
`LINE`-prefixed token, all of whose `LINE`-prefixed tokens are malformed,
the bad-delimiter diagnostic is printed, any completed scan leaves the start
and count at the unset sentinel `-1`, any non-aborting processing of the line
suppresses the record, and no output line is written for the line. -/
theorem c4_all_malformed_suppresses (line : String) (T : List String)
    (hT : pySplitWs line = T) (t : String) (hmem : t ∈ T)
    (ht2 : pyPrefix4 t = "LINE") (ht3 : (pySplitColon t).length ≠ 3)
    (hall : ∀ u ∈ T, pyPrefix4 u = "LINE" → (pySplitColon u).length ≠ 3) :
    ("BAD LINE DELIMITER AT LINE: " ++ line) ∈ (processData line T).1 ∧
    (∀ ds fn sl nl, scanLoop T line T 0 "" (-1) (-1) = (ds, .ok (fn, sl, nl)) →
      sl = -1 ∧ nl = -1) ∧
    (∀ ds r, processData line T = (ds, .ok r) → r = none) ∧
    (∀ wb, (processLine wb line).2.1 = []) := by
  have hdiag : ("BAD LINE DELIMITER AT LINE: " ++ line) ∈
      (scanLoop T line T 0 "" (-1) (-1)).1 :=
    scan_badcolon_diag T line t ht2 T hmem hall 0 (by simp) "" (-1) (-1)
  have hslnl : ∀ ds fn sl nl,
      scanLoop T line T 0 "" (-1) (-1) = (ds, .ok (fn, sl, nl)) →
      sl = -1 ∧ nl = -1 := by
    intro ds fn sl nl h
    exact scan_slnl_const T line T
      (fun u hu hc => hall u hu hc.1 hc.2) 0 "" (-1) (-1) ds fn sl nl h
  have hsup : ∀ ds r, processData line T = (ds, .ok r) → r = none := by
    intro ds r hpd
    cases hsc : (scanLoop T line T 0 "" (-1) (-1)).2 with
    | error e =>
      rw [processData_err line T e hsc] at hpd
      simp at hpd
    | ok v =>
      obtain ⟨fn, sl, nl⟩ := v
      rcases hq : scanLoop T line T 0 "" (-1) (-1) with ⟨ds2, r2⟩
      have hr2 : r2 = .ok (fn, sl, nl) := by rw [hq] at hsc; exact hsc
      have hm1 := hslnl ds2 fn sl nl (by rw [hq, hr2])
      rw [processData_ok_invalid line T fn sl nl hsc
          (Or.inr (Or.inl hm1.1))] at hpd
      simp at hpd
      exact hpd.2.symm
  refine ⟨?_, hslnl, hsup, ?_⟩
  · cases hsc : (scanLoop T line T 0 "" (-1) (-1)).2 with
    | error e =>
      rw [processData_err line T e hsc]
      exact hdiag
    | ok v =>
      obtain ⟨fn, sl, nl⟩ := v
      rcases hq : scanLoop T line T 0 "" (-1) (-1) with ⟨ds2, r2⟩
      have hr2 : r2 = .ok (fn, sl, nl) := by rw [hq] at hsc; exact hsc
      have hm1 := hslnl ds2 fn sl nl (by rw [hq, hr2])
      rw [processData_ok_invalid line T fn sl nl hsc (Or.inr (Or.inl hm1.1))]
      exact List.mem_append_left _ hdiag
  · intro wb
    have hne : pySplitWs line ≠ [] := by
      rw [hT]
      intro h
      rw [h] at hmem
      cases hmem
    cases hpd2 : (processData line (pySplitWs line)).2 with
    | error e =>
      rw [processLine_data_err wb line e hne hpd2]
    | ok o =>
      cases o with
      | none => rw [processLine_data_none wb line hne hpd2]
      | some rec =>
        rcases hq : processData line (pySplitWs line) with ⟨ds3, r3⟩
        have : r3 = .ok (some rec) := by rw [hq] at hpd2; exact hpd2
        have habs := hsup ds3 (some rec) (by rw [← hT, hq, this])
        cases habs

/-- C4 witness: a concrete line whose only `LINE`-prefixed token is
malformed. -/
theorem c4_witness :
    ("BAD LINE DELIMITER AT LINE: FILE a.c LINE:1:2:3" ∈
      (processData "FILE a.c LINE:1:2:3" ["FILE", "a.c", "LINE:1:2:3"]).1) ∧
    (∀ ds fn sl nl,
      scanLoop ["FILE", "a.c", "LINE:1:2:3"] "FILE a.c LINE:1:2:3"
          ["FILE", "a.c", "LINE:1:2:3"] 0 "" (-1) (-1) =
        (ds, .ok (fn, sl, nl)) → sl = -1 ∧ nl = -1) ∧
    (∀ ds r, processData "FILE a.c LINE:1:2:3" ["FILE", "a.c", "LINE:1:2:3"] =
      (ds, .ok r) → r = none) ∧
    (∀ wb, (processLine wb "FILE a.c LINE:1:2:3").2.1 = []) :=
  c4_all_malformed_suppresses "FILE a.c LINE:1:2:3"
    ["FILE", "a.c", "LINE:1:2:3"] rfl "LINE:1:2:3" (by decide) (by decide)
    (by decide) (by decide)

/-- C5: last token wins.  A successful scan takes the filename from right
after the last `FILE` token, and the start and count from the last valid
3-part `LINE` token; in particular `FILE a.c FILE b.c LINE:1:2` yields the
record `1,2,b.c`. -/
theorem c5_last_token_wins :
    (∀ (full : List String) (line : String) (A B : List String) (idx : Nat)
       (fn : String) (sl nl : Int) (ds : List String) (fn2 : String)
       (sl2 nl2 : Int),
       (∀ u ∈ B, u ≠ "FILE") →
       scanLoop full line (A ++ "FILE" :: B) idx fn sl nl =
         (ds, .ok (fn2, sl2, nl2)) →
       full[idx + A.length + 1]? = some fn2) ∧
    (∀ (full : List String) (line t x s c : String) (sv cv : Int),
       pyPrefix4 t = "LINE" → pySplitColon t = [x, s, c] →
       pyInt s = some sv → pyInt c = some cv →
       ∀ (A B : List String) (idx : Nat) (fn : String) (sl nl : Int)
         (ds : List String) (fn2 : String) (sl2 nl2 : Int),
         (∀ u ∈ B, ¬(pyPrefix4 u = "LINE" ∧ (pySplitColon u).length = 3)) →
         scanLoop full line (A ++ t :: B) idx fn sl nl =
           (ds, .ok (fn2, sl2, nl2)) →
         sl2 = sv ∧ nl2 = cv) ∧
    convert_file ["FILE a.c FILE b.c LINE:1:2"] = (["1,2,b.c"], [], none) :=
  ⟨scan_last_file,
   fun full line t x s c sv cv h1 h2 h3 h4 =>
     scan_last_goodline full line t x s c sv cv h1 h2 h3 h4,
   rfl⟩

/-- C5 witness: the general conjuncts applied to concrete scans. -/
theorem c5_witness :
    (["FILE", "a.c", "FILE", "b.c", "LINE:1:2"] : List String)[3]? =
      some "b.c" ∧
    ((1 : Int) = 1 ∧ (2 : Int) = 2) := by
  constructor
  · have h := c5_last_token_wins.1 ["FILE", "a.c", "FILE", "b.c", "LINE:1:2"]
      "l" ["FILE", "a.c"] ["b.c", "LINE:1:2"] 0 "" (-1) (-1) [] "b.c" 1 2
      (by decide) rfl
    simpa using h
  · exact c5_last_token_wins.2.1 ["FILE", "a.c", "LINE:9:9", "LINE:1:2"] "l"
      "LINE:1:2" "LINE" "1" "2" 1 2 rfl rfl rfl rfl
      ["FILE", "a.c", "LINE:9:9"] [] 0 "" (-1) (-1) [] "a.c" 1 2 (by decide)
      rfl

/-- C6: a line holding a `LINE`-prefixed 3-part token with a non-integer
second or third part makes the line abort with a ValueError, and the whole
run aborts whenever such a line occurs in the input. -/
theorem c6_numeric_parse_fatal (line : String) (T : List String)
    (t x s c : String) (hT : pySplitWs line = T) (hmem : t ∈ T)
    (ht2 : pyPrefix4 t = "LINE") (hsp : pySplitColon t = [x, s, c])
    (hbad : pyInt s = none ∨ pyInt c = none) :
    (∃ v, (processData line T).2 = .error (.valueError v)) ∧
    (∀ lines, line ∈ lines → (convert_file lines).2.2 ≠ none) := by
  obtain ⟨v, hv⟩ := scan_badint_mem T line t x s c ht2 hsp hbad T hmem 0
    (by simp) "" (-1) (-1)
  rcases hq : scanLoop T line T 0 "" (-1) (-1) with ⟨ds2, r2⟩
  have hr2 : r2 = .error (.valueError v) := by rw [hq] at hv; exact hv
  have hpd : (processData line T).2 = .error (.valueError v) := by
    rw [processData_err line T (.valueError v) (by rw [hq, hr2])]
  refine ⟨⟨v, hpd⟩, ?_⟩
  intro lines hmem2
  have hne : pySplitWs line ≠ [] := by
    rw [hT]
    intro h
    rw [h] at hmem
    cases hmem
  have hl : ∀ wb, (processLine wb line).2.2.2 ≠ none := by
    intro wb
    rw [processLine_data_err wb line (.valueError v) hne
        (by rw [hT]; exact hpd)]
    simp
  exact convLoop_err_of_mem line hl lines hmem2 false

/-- C6 witness: the concrete line `FILE x.c LINE:1:zzz`. -/
theorem c6_witness :
    (∃ v, (processData "FILE x.c LINE:1:zzz"
        ["FILE", "x.c", "LINE:1:zzz"]).2 = .error (.valueError v)) ∧
    (∀ lines, "FILE x.c LINE:1:zzz" ∈ lines →
      (convert_file lines).2.2 ≠ none) :=
  c6_numeric_parse_fatal "FILE x.c LINE:1:zzz" ["FILE", "x.c", "LINE:1:zzz"]
    "LINE:1:zzz" "LINE" "1" "zzz" rfl (by decide) (by decide) rfl
    (Or.inr rfl)

/-- C7 counterexample: on `LINE:a:b FILE` the final token is `FILE`, yet the
run fails with the ValueError of the earlier numeric parse, not with the
IndexError of the look-ahead. -/
theorem c7_counterexample :
    (convert_file ["LINE:a:b FILE"]).2.2 = some (ConvErr.valueError "a") ∧
    ConvErr.valueError "a" ≠ ConvErr.indexError := by
  refine ⟨rfl, ?_⟩
  decide

/-- C7 (amended): a data-bearing line whose final token is `FILE` always
aborts its processing; the abort is the IndexError of the unguarded
look-ahead provided no earlier numeric parse error preempts it, and the
whole run aborts whenever such a line occurs in the input. -/
theorem c7_final_FILE_token_aborts (line : String) (T : List String)
    (hT : pySplitWs line = T) (hlast : T.getLast? = some "FILE") :
    (∃ e, (processData line T).2 = .error e) ∧
    ((∀ u ∈ T, ∀ x s c, pySplitColon u = [x, s, c] →
        pyInt s ≠ none ∧ pyInt c ≠ none) →
      (processData line T).2 = .error .indexError) ∧
    (∀ lines, line ∈ lines → (convert_file lines).2.2 ≠ none) := by
  obtain ⟨e, he⟩ := scan_last_FILE_err T line T hlast 0 (by simp) "" (-1) (-1)
  rcases hq : scanLoop T line T 0 "" (-1) (-1) with ⟨ds2, r2⟩
  have hr2 : r2 = .error e := by rw [hq] at he; exact he
  have hpd : (processData line T).2 = .error e := by
    rw [processData_err line T e (by rw [hq, hr2])]
  have hne : pySplitWs line ≠ [] := by
    rw [hT]
    intro h
    rw [h] at hlast
    simp at hlast
  refine ⟨⟨e, hpd⟩, ?_, ?_⟩
  · intro hgood
    have hidx := scan_last_FILE_indexError T line T hlast hgood 0 (by simp)
      "" (-1) (-1)
    rw [processData_err line T .indexError hidx]
  · intro lines hmem2
    have hl : ∀ wb, (processLine wb line).2.2.2 ≠ none := by
      intro wb
      rw [processLine_data_err wb line e hne (by rw [hT]; exact hpd)]
      simp
    exact convLoop_err_of_mem line hl lines hmem2 false

/-- C7 witness: the concrete line `x FILE`. -/
theorem c7_witness :
    (∃ e, (processData "x FILE" ["x", "FILE"]).2 = .error e) ∧
    ((∀ u ∈ (["x", "FILE"] : List String), ∀ x s c,
        pySplitColon u = [x, s, c] → pyInt s ≠ none ∧ pyInt c ≠ none) →
      (processData "x FILE" ["x", "FILE"]).2 = .error .indexError) ∧
    (∀ lines, "x FILE" ∈ lines → (convert_file lines).2.2 ≠ none) :=
  c7_final_FILE_token_aborts "x FILE" ["x", "FILE"] rfl rfl

/-- C8 counterexample: on input whose single line is `FILE` the run aborts
with the look-ahead IndexError and neither stream is closed: the source has
no guaranteed-cleanup construct, so the close calls are skipped on error
paths. -/
theorem c8_counterexample :
    (convertTrace ["FILE"]).2 = some ConvErr.indexError ∧
    Event.closeIn ∉ (convertTrace ["FILE"]).1 ∧
    Event.closeOut ∉ (convertTrace ["FILE"]).1 := by
  refine ⟨rfl, ?_, ?_⟩ <;> decide

/-- C8 (amended): `convert_file` closes both streams exactly when the
per-line loop completes without an uncaught exception; on the error paths
the explicit close calls are skipped. -/
theorem c8_close_only_without_error (lines : List String)
    (h : (convertTrace lines).2 = none) :
    Event.closeIn ∈ (convertTrace lines).1 ∧
    Event.closeOut ∈ (convertTrace lines).1 := by
  rcases hcf : convert_file lines with ⟨out, ds, err⟩
  cases err with
  | none =>
    unfold convertTrace
    rw [hcf]
    simp
  | some e =>
    unfold convertTrace at h
    rw [hcf] at h
    simp at h

/-- C8 witness: an error-free run closes both streams. -/
theorem c8_witness :
    Event.closeIn ∈ (convertTrace ["FILE a.c LINE:1:2"]).1 ∧
    Event.closeOut ∈ (convertTrace ["FILE a.c LINE:1:2"]).1 :=
  c8_close_only_without_error ["FILE a.c LINE:1:2"] rfl

/-- C9: with any argument vector not holding exactly two positional
arguments (three entries with the program name), the script prints the
two-line usage message, returns 1, and does not call the converter. -/
theorem c9_usage_on_wrong_arg_count (argv : List String)
    (h : argv.length ≠ 3) :
    mainFn argv =
      (["NEED 2 ARGUMENTS", "ARGUMENT FORMAT: input_file output_file"], 1,
       none) := by
  unfold mainFn
  rw [dif_pos h]

/-- C9 witness: no arguments at all. -/
theorem c9_witness :
    mainFn ["prog"] =
      (["NEED 2 ARGUMENTS", "ARGUMENT FORMAT: input_file output_file"], 1,
       none) :=
  c9_usage_on_wrong_arg_count ["prog"] (by decide)

/-- C10 counterexample: the line `FILE a.c LINE:-1:5 LINE:1:2` contains a
valid `FILE` pair and the well-formed token `LINE:-1:5` whose parsed start is
`-1`, yet the record `1,2,a.c` is written and no diagnostic is printed: a
later valid `LINE` token overwrites the parsed `-1`, so the claim fails as a
universal statement. -/
theorem c10_counterexample :
    convert_file ["FILE a.c LINE:-1:5 LINE:1:2"] = (["1,2,a.c"], [], none) ∧
    (convert_file ["FILE a.c LINE:-1:5 LINE:1:2"]).1 ≠ [] := by
  refine ⟨rfl, ?_⟩
  decide

/-- C10 (amended): for a data-bearing line whose tokens are one `FILE name`
pair and one well-formed `LINE:<s>:<c>` token (in either order) among tokens
that are neither `FILE` nor `LINE`-prefixed, if the parsed start or count is
`-1` then the parsed value is indistinguishable from the unset sentinel: the
record is suppressed and the corresponding missing-field diagnostics are
printed. -/
theorem c10_minus_one_sentinel (line : String) (pre mid post : List String)
    (name t x s c : String) (sv cv : Int) (wb : Bool)
    (ht2 : pyPrefix4 t = "LINE") (hsp : pySplitColon t = [x, s, c])
    (hs : pyInt s = some sv) (hc : pyInt c = some cv)
    (hm1 : sv = -1 ∨ cv = -1)
    (hdec : pySplitWs line = pre ++ "FILE" :: name :: (mid ++ t :: post) ∨
            pySplitWs line = pre ++ t :: (mid ++ "FILE" :: name :: post))
    (hname : name ≠ "FILE" ∧ pyPrefix4 name ≠ "LINE")
    (hpre : ∀ u ∈ pre, u ≠ "FILE" ∧ pyPrefix4 u ≠ "LINE")
    (hmid : ∀ u ∈ mid, u ≠ "FILE" ∧ pyPrefix4 u ≠ "LINE")
    (hpost : ∀ u ∈ post, u ≠ "FILE" ∧ pyPrefix4 u ≠ "LINE") :
    processLine wb line = (wb, [],
      (if sv = -1 then ["NO STARTLINE FOUND AT LINE: " ++ line] else []) ++
      (if cv = -1 then ["NO NUM_LINES FOUND AT LINE: " ++ line] else []),
      none) := by
  have hscan := scan_decomp_result (pySplitWs line) line pre mid post name t
    x s c sv cv ht2 hsp hs hc hname hpre hmid hpost hdec
  have hne : pySplitWs line ≠ [] := by
    rcases hdec with h | h <;> rw [h] <;> intro hc2 <;> simp at hc2
  have hnm : name ≠ "" := by
    apply pySplitWs_mem_ne_empty (s := line)
    rcases hdec with h | h <;> rw [h] <;> simp
  have hv : name = "" ∨ sv = -1 ∨ cv = -1 := by
    rcases hm1 with h | h
    · exact Or.inr (Or.inl h)
    · exact Or.inr (Or.inr h)
  have hpd : processData line (pySplitWs line) =
      ((if sv = -1 then ["NO STARTLINE FOUND AT LINE: " ++ line] else []) ++
       (if cv = -1 then ["NO NUM_LINES FOUND AT LINE: " ++ line] else []),
       .ok none) := by
    rw [processData_ok_invalid line (pySplitWs line) name sv cv
        (by rw [hscan]) hv, hscan]
    simp [validateDiags, hnm]
  rw [processLine_data_none wb line hne (by rw [hpd]), hpd]

/-- C10 witness: the concrete line `FILE a.c LINE:-1:5`. -/
theorem c10_witness :
    processLine false "FILE a.c LINE:-1:5" =
      (false, [], ["NO STARTLINE FOUND AT LINE: FILE a.c LINE:-1:5"],
       none) := by
  have h := c10_minus_one_sentinel "FILE a.c LINE:-1:5" [] [] [] "a.c"
    "LINE:-1:5" "LINE" "-1" "5" (-1) 5 false rfl rfl rfl rfl (Or.inl rfl)
    (Or.inl rfl) (by decide) (by decide) (by decide) (by decide)
  simpa using h
